import Mathlib

/-!
Verification development for `src/data_extractor/basketball_data_extractor.py`
(class `BasketballDataExtractor`).

Modelling conventions:
* Python numbers are embedded as `Int` (frame numbers, counts) and `ℚ`
  (box coordinates, speeds, timestamps); `frame_num / 30.0` becomes exact
  rational division by 30, and the constant `3.6` becomes `18 / 5`.
* Python dictionaries are embedded as association lists in insertion order
  with unique-key updates (`dictSet`); dictionary keys and player/ball
  identifiers, which in Python may be strings or ints, are embedded as the
  sum type `PyKey`.
* The six collections of the extractor are a `Extractor` structure; each
  `extract_*` method becomes a function `Extractor → inputs → Extractor`.
* All functions are total, mirroring the source's no-raise behaviour on
  malformed input (short boxes, missing keys, short frame-number lists).
-/

/-- A Python dictionary key / identifier value: a string or an int
(the two shapes that occur for player ids and the ball-track key `1`). -/
inductive PyKey where
| s (v : String)
| i (v : Int)
deriving DecidableEq

/-- Per-entity tracking info: only the optional `bbox` entry is consulted
(`track_info.get('bbox', [])`, line 48 / line 84). -/
structure TrackInfo where
  bbox? : Option (List ℚ)
deriving DecidableEq

/-- `track_info.get('bbox', [])`: the stored box, defaulting to `[]`. -/
def TrackInfo.bbox (t : TrackInfo) : List ℚ := t.bbox?.getD []

/-- One frame's ball-possession value, as dispatched on by
`isinstance(possession, dict) / isinstance(possession, list)` (lines 52-57):
a mapping (only its keys matter to this module), a sequence, or any other
shape. Iterating `otherA` in `extract_team_possession_data` would raise
`TypeError` in Python; the claims only exercise the mapping/sequence shapes,
and `Acquisition.elems` totalises it with `[]`. -/
inductive Acquisition where
| dictA (keys : List PyKey)
| listA (elems : List PyKey)
| otherA
deriving DecidableEq

/-- The keys / elements iterated by `for player_id in possession_info`
(line 174). -/
def Acquisition.elems : Acquisition → List PyKey
| .dictA ks => ks
| .listA xs => xs
| .otherA => []

/-- A `player_data` entry (lines 59-69). -/
structure PlayerRecord where
  frame : Int
  player_id : PyKey
  team : String
  x_min : Option ℚ
  y_min : Option ℚ
  x_max : Option ℚ
  y_max : Option ℚ
  has_ball : Bool
  timestamp : ℚ
deriving DecidableEq

/-- A `ball_data` entry (lines 85-94). -/
structure BallRecord where
  frame : Int
  x_min : Option ℚ
  y_min : Option ℚ
  x_max : Option ℚ
  y_max : Option ℚ
  center_x : Option ℚ
  center_y : Option ℚ
  timestamp : ℚ
deriving DecidableEq

/-- A `pass_data` entry (lines 106-118). -/
structure PassRecord where
  pass_id : Int
  start_frame : Option Int
  end_frame : Option Int
  passer_id : Option PyKey
  receiver_id : Option PyKey
  passer_team : Option String
  receiver_team : Option String
  pass_type : String
  start_timestamp : ℚ
  end_timestamp : ℚ
  duration : ℚ
deriving DecidableEq

/-- An `interception_data` entry (lines 130-137). -/
structure InterceptionRecord where
  interception_id : Int
  frame : Option Int
  interceptor_id : Option PyKey
  interceptor_team : Option String
  original_team : Option String
  timestamp : ℚ
deriving DecidableEq

/-- A `speed_data` entry (lines 152-158). -/
structure SpeedRecord where
  frame : Int
  player_id : PyKey
  speed_mps : ℚ
  speed_kmh : ℚ
  timestamp : ℚ
deriving DecidableEq

/-- A `team_possession_data` entry (lines 179-184); `possession_data` is the
dict built by `team_possession[player_id] = 1`. -/
structure TeamPossessionRecord where
  frame : Int
  possession_data : List (PyKey × Int)
  total_players_with_ball : Nat
  timestamp : ℚ
deriving DecidableEq

/-- The six collections initialised in `__init__` (lines 26-31). -/
structure Extractor where
  player_data : List PlayerRecord
  ball_data : List BallRecord
  pass_data : List PassRecord
  interception_data : List InterceptionRecord
  speed_data : List SpeedRecord
  team_possession_data : List TeamPossessionRecord
deriving DecidableEq

/-- A fresh extractor: all six collections empty. -/
def Extractor.init : Extractor :=
  { player_data := [], ball_data := [], pass_data := [], interception_data := []
  , speed_data := [], team_possession_data := [] }

/-- Python dict lookup `d.get(k)` on an association list. -/
def pyGet? {α : Type} (k : PyKey) : List (PyKey × α) → Option α
| [] => none
| kv :: rest => if kv.1 = k then some kv.2 else pyGet? k rest

/-- Python dict lookup with default, `d.get(k, dflt)`. -/
def pyGetD {α : Type} (k : PyKey) (dflt : α) (l : List (PyKey × α)) : α :=
  (pyGet? k l).getD dflt

/-- Python dict assignment `d[k] = v`: update the binding in place when the
key is present, otherwise append it (insertion order preserved). -/
def dictSet {κ α : Type} [DecidableEq κ] (k : κ) (v : α) : List (κ × α) → List (κ × α)
| [] => [(k, v)]
| kv :: rest => if kv.1 = k then (k, v) :: rest else kv :: dictSet k v rest

/-- `frame_numbers[frame_idx] if frame_idx < len(frame_numbers) else frame_idx`
(lines 45, 81, 149, 170). -/
def resolveFrame (frame_numbers : List Int) (frame_idx : Nat) : Int :=
  frame_numbers.getD frame_idx (frame_idx : Int)

/-- One `player_entry` dict (lines 47-69): team lookup with default
`'Unknown'`, has-ball membership test dispatching on the possession shape,
and box fields that are populated only when the box has at least four
components (`bbox[j] if len(bbox) >= 4 else None`). -/
def mkPlayerEntry (frame_num : Int) (player_id : PyKey) (track_info : TrackInfo)
    (assignment : List (PyKey × String)) (possession : Acquisition) : PlayerRecord :=
  let team := pyGetD player_id "Unknown" assignment
  let has_ball : Bool :=
    match possession with
    | .dictA ks => decide (player_id ∈ ks)
    | .listA xs => decide (player_id ∈ xs)
    | .otherA => false
  match track_info.bbox with
  | b0 :: b1 :: b2 :: b3 :: _ =>
      { frame := frame_num, player_id := player_id, team := team
      , x_min := some b0, y_min := some b1, x_max := some b2, y_max := some b3
      , has_ball := has_ball, timestamp := (frame_num : ℚ) / 30 }
  | _ =>
      { frame := frame_num, player_id := player_id, team := team
      , x_min := none, y_min := none, x_max := none, y_max := none
      , has_ball := has_ball, timestamp := (frame_num : ℚ) / 30 }

/-- The records appended for one frame by the inner loop
`for player_id, track_info in tracks.items()` (lines 47-70). -/
def framePlayerRecs (frame_num : Int) (tracks : List (PyKey × TrackInfo))
    (assignment : List (PyKey × String)) (possession : Acquisition) : List PlayerRecord :=
  tracks.map (fun kv => mkPlayerEntry frame_num kv.1 kv.2 assignment possession)

/-- The outer loop of `extract_player_data` (line 44): `enumerate(zip(...))`
truncates to the shortest of the three per-frame lists; the frame number is
resolved by index fallback. -/
def extractPlayerRecs (frame_numbers : List Int) :
    Nat → List (List (PyKey × TrackInfo)) → List (List (PyKey × String)) →
    List Acquisition → List PlayerRecord
| frame_idx, tracks :: ts, assignment :: asgs, possession :: ps =>
    framePlayerRecs (resolveFrame frame_numbers frame_idx) tracks assignment possession
      ++ extractPlayerRecs frame_numbers (frame_idx + 1) ts asgs ps
| _, _, _, _ => []

/-- `extract_player_data` (lines 33-70). -/
def extract_player_data (s : Extractor) (player_tracks : List (List (PyKey × TrackInfo)))
    (player_assignment : List (List (PyKey × String))) (ball_aquisition : List Acquisition)
    (frame_numbers : List Int) : Extractor :=
  { s with player_data :=
      s.player_data ++ extractPlayerRecs frame_numbers 0 player_tracks player_assignment ball_aquisition }

/-- One `ball_entry` dict (lines 84-94): box and center fields are populated
only when the box has at least four components. -/
def mkBallEntry (frame_num : Int) (bbox : List ℚ) : BallRecord :=
  match bbox with
  | b0 :: b1 :: b2 :: b3 :: _ =>
      { frame := frame_num
      , x_min := some b0, y_min := some b1, x_max := some b2, y_max := some b3
      , center_x := some ((b0 + b2) / 2), center_y := some ((b1 + b3) / 2)
      , timestamp := (frame_num : ℚ) / 30 }
  | _ =>
      { frame := frame_num
      , x_min := none, y_min := none, x_max := none, y_max := none
      , center_x := none, center_y := none
      , timestamp := (frame_num : ℚ) / 30 }

/-- The records (zero or one) appended for one frame by `extract_ball_data`:
the guard `if ball_info and 1 in ball_info` (line 83) requires a non-empty
entry containing the key `1`. -/
def frameBallRecs (frame_num : Int) (ball_info : List (PyKey × TrackInfo)) : List BallRecord :=
  if ball_info.isEmpty then []
  else
    match pyGet? (PyKey.i 1) ball_info with
    | some track => [mkBallEntry frame_num track.bbox]
    | none => []

/-- The loop of `extract_ball_data` (lines 80-95). -/
def extractBallRecs (frame_numbers : List Int) :
    Nat → List (List (PyKey × TrackInfo)) → List BallRecord
| frame_idx, ball_info :: rest =>
    frameBallRecs (resolveFrame frame_numbers frame_idx) ball_info
      ++ extractBallRecs frame_numbers (frame_idx + 1) rest
| _, [] => []

/-- `extract_ball_data` (lines 72-95). -/
def extract_ball_data (s : Extractor) (ball_tracks : List (List (PyKey × TrackInfo)))
    (frame_numbers : List Int) : Extractor :=
  { s with ball_data := s.ball_data ++ extractBallRecs frame_numbers 0 ball_tracks }

/-- One input pass dict: every key `pass_info.get(...)` consults is optional. -/
structure PassInfo where
  pass_id? : Option Int
  start_frame? : Option Int
  end_frame? : Option Int
  passer_id? : Option PyKey
  receiver_id? : Option PyKey
  passer_team? : Option String
  receiver_team? : Option String
  pass_type? : Option String
deriving DecidableEq

/-- One `pass_entry` dict (lines 106-118); `cur_len` is
`len(self.pass_data)` at the moment of the append, the default pass id. -/
def mkPassEntry (cur_len : Nat) (p : PassInfo) : PassRecord :=
  { pass_id := p.pass_id?.getD (cur_len : Int)
  , start_frame := p.start_frame?
  , end_frame := p.end_frame?
  , passer_id := p.passer_id?
  , receiver_id := p.receiver_id?
  , passer_team := p.passer_team?
  , receiver_team := p.receiver_team?
  , pass_type := p.pass_type?.getD "Unknown"
  , start_timestamp := ((p.start_frame?.getD 0 : Int) : ℚ) / 30
  , end_timestamp := ((p.end_frame?.getD 0 : Int) : ℚ) / 30
  , duration := ((p.end_frame?.getD 0 - p.start_frame?.getD 0 : Int) : ℚ) / 30 }

/-- The loop of `extract_pass_data` (lines 105-119): each iteration appends
exactly one record, so `len(self.pass_data)` grows by one per step. -/
def passRecsFrom (cur_len : Nat) : List PassInfo → List PassRecord
| [] => []
| p :: ps => mkPassEntry cur_len p :: passRecsFrom (cur_len + 1) ps

/-- `extract_pass_data` (lines 97-119); `frame_numbers` is accepted but
never consulted by the body. -/
def extract_pass_data (s : Extractor) (passes : List PassInfo)
    (frame_numbers : List Int) : Extractor :=
  { s with pass_data := s.pass_data ++ passRecsFrom s.pass_data.length passes }

/-- One input interception dict; every consulted key is optional. -/
structure InterceptionInfo where
  interception_id? : Option Int
  frame? : Option Int
  interceptor_id? : Option PyKey
  interceptor_team? : Option String
  original_team? : Option String
deriving DecidableEq

/-- One `interception_entry` dict (lines 130-137). -/
def mkInterceptionEntry (cur_len : Nat) (info : InterceptionInfo) : InterceptionRecord :=
  { interception_id := info.interception_id?.getD (cur_len : Int)
  , frame := info.frame?
  , interceptor_id := info.interceptor_id?
  , interceptor_team := info.interceptor_team?
  , original_team := info.original_team?
  , timestamp := ((info.frame?.getD 0 : Int) : ℚ) / 30 }

/-- The loop of `extract_interception_data` (lines 129-138). -/
def interceptionRecsFrom (cur_len : Nat) : List InterceptionInfo → List InterceptionRecord
| [] => []
| info :: rest => mkInterceptionEntry cur_len info :: interceptionRecsFrom (cur_len + 1) rest

/-- `extract_interception_data` (lines 121-138); `frame_numbers` is accepted
but never consulted by the body. -/
def extract_interception_data (s : Extractor) (interceptions : List InterceptionInfo)
    (frame_numbers : List Int) : Extractor :=
  { s with interception_data :=
      s.interception_data ++ interceptionRecsFrom s.interception_data.length interceptions }

/-- One `speed_entry` dict (lines 152-158); `3.6` is the exact rational
`18 / 5`. -/
def mkSpeedEntry (frame_num : Int) (player_id : PyKey) (speed : ℚ) : SpeedRecord :=
  { frame := frame_num, player_id := player_id, speed_mps := speed
  , speed_kmh := speed * (18 / 5), timestamp := (frame_num : ℚ) / 30 }

/-- The records appended for one frame by
`for player_id, speed in speed_info.items()` (lines 151-159). -/
def frameSpeedRecs (frame_num : Int) (speed_info : List (PyKey × ℚ)) : List SpeedRecord :=
  speed_info.map (fun kv => mkSpeedEntry frame_num kv.1 kv.2)

/-- The loop of `extract_speed_data` (lines 148-159). -/
def extractSpeedRecs (frame_numbers : List Int) :
    Nat → List (List (PyKey × ℚ)) → List SpeedRecord
| frame_idx, speed_info :: rest =>
    frameSpeedRecs (resolveFrame frame_numbers frame_idx) speed_info
      ++ extractSpeedRecs frame_numbers (frame_idx + 1) rest
| _, [] => []

/-- `extract_speed_data` (lines 140-159). -/
def extract_speed_data (s : Extractor) (player_speed_per_frame : List (List (PyKey × ℚ)))
    (frame_numbers : List Int) : Extractor :=
  { s with speed_data := s.speed_data ++ extractSpeedRecs frame_numbers 0 player_speed_per_frame }

/-- One `possession_entry` dict (lines 172-184): the inner loop
`team_possession[player_id] = 1` builds a dict mapping each iterated player
to the constant 1; `total_players_with_ball` is `len(possession_info)`. -/
def mkTeamPossessionEntry (frame_num : Int) (possession_info : Acquisition) : TeamPossessionRecord :=
  { frame := frame_num
  , possession_data := possession_info.elems.foldl (fun acc pid => dictSet pid 1 acc) []
  , total_players_with_ball := possession_info.elems.length
  , timestamp := (frame_num : ℚ) / 30 }

/-- The loop of `extract_team_possession_data` (lines 169-185): one record
per frame, unconditionally. -/
def extractTeamPossessionRecs (frame_numbers : List Int) :
    Nat → List Acquisition → List TeamPossessionRecord
| frame_idx, possession_info :: rest =>
    mkTeamPossessionEntry (resolveFrame frame_numbers frame_idx) possession_info
      :: extractTeamPossessionRecs frame_numbers (frame_idx + 1) rest
| _, [] => []

/-- `extract_team_possession_data` (lines 161-185). -/
def extract_team_possession_data (s : Extractor) (ball_aquisition : List Acquisition)
    (frame_numbers : List Int) : Extractor :=
  { s with team_possession_data :=
      s.team_possession_data ++ extractTeamPossessionRecs frame_numbers 0 ball_aquisition }

/-- The result structure of `generate_summary_report` (lines 305-328);
`average_player_speeds` is present only when speed records exist. -/
structure Summary where
  total_frames_analyzed : Nat
  total_players_detected : Nat
  total_ball_detections : Nat
  total_passes : Nat
  total_interceptions : Nat
  total_speed_measurements : Nat
  analysis_duration_seconds : ℚ
  teams_detected : List String
  average_player_speeds : Option (List (PyKey × ℚ))
deriving DecidableEq

/-- Python `max(l)` on a non-empty list (`[]` is unreachable under the
guards in `generate_summary_report`; it is mapped to 0 like the guarded
branch). -/
def listMax : List ℚ → ℚ
| [] => 0
| t :: ts => ts.foldl max t

/-- One step of the grouping loop (lines 319-323): create the player's
entry on first sight, then append the speed to it. -/
def addSpeed (acc : List (PyKey × List ℚ)) (pid : PyKey) (v : ℚ) : List (PyKey × List ℚ) :=
  match acc with
  | [] => [(pid, [v])]
  | kv :: rest => if kv.1 = pid then (kv.1, kv.2 ++ [v]) :: rest else kv :: addSpeed rest pid v

/-- The `avg_speeds` grouping dict (lines 318-323). -/
def groupSpeeds (recs : List SpeedRecord) : List (PyKey × List ℚ) :=
  recs.foldl (fun acc e => addSpeed acc e.player_id e.speed_mps) []

/-- The comprehension `sum(speeds) / len(speeds)` (lines 325-328). -/
def avgSpeeds (g : List (PyKey × List ℚ)) : List (PyKey × ℚ) :=
  g.map (fun kv => (kv.1, kv.2.sum / (kv.2.length : ℚ)))

/-- `generate_summary_report` (lines 298-330). `len(set(...))` is the
length after removing duplicates; `list(set(...))` for `teams_detected` is
modelled as duplicate removal in first-occurrence order (Python's set
iteration order is unspecified, and no claim depends on it). -/
def generate_summary_report (s : Extractor) : Summary :=
  { total_frames_analyzed :=
      if s.player_data.isEmpty then 0 else ((s.player_data.map PlayerRecord.frame).dedup).length
  , total_players_detected :=
      if s.player_data.isEmpty then 0 else ((s.player_data.map PlayerRecord.player_id).dedup).length
  , total_ball_detections := s.ball_data.length
  , total_passes := s.pass_data.length
  , total_interceptions := s.interception_data.length
  , total_speed_measurements := s.speed_data.length
  , analysis_duration_seconds :=
      if s.player_data.isEmpty then 0 else listMax (s.player_data.map PlayerRecord.timestamp)
  , teams_detected :=
      if s.player_data.isEmpty then []
      else (((s.player_data.filter (fun p => p.team ≠ "Unknown")).map PlayerRecord.team).dedup)
  , average_player_speeds :=
      if s.speed_data.isEmpty then none else some (avgSpeeds (groupSpeeds s.speed_data)) }

/-- `(l.filter (player_id = pid)).map speed_mps`: the speeds recorded for
one player, in insertion order. -/
def speedsOf (pid : PyKey) (recs : List SpeedRecord) : List ℚ :=
  (recs.filter (fun e => e.player_id = pid)).map SpeedRecord.speed_mps

/-- An in-memory Python value, as stored in the six collections and as
produced by reloading the structured JSON file: `None`, bool, int, float
(embedded as ℚ — `json.dump` / `json.load` round-trips floats exactly via
shortest round-trip `repr`), string, list, or dict (association list in
insertion order). -/
inductive PyVal where
| none
| b (v : Bool)
| int (v : Int)
| num (v : ℚ)
| str (v : String)
| list (xs : List PyVal)
| dict (kvs : List (PyKey × PyVal))

/-- `str(k)`: how `json.dump` coerces a non-string dictionary key; string
keys are written unchanged. -/
def PyKey.keyStr : PyKey → String
| .s v => v
| .i v => toString v

mutual

/-- What `json.load` returns after `json.dump` of the given value: leaves
and list structure are reproduced exactly; every dictionary comes back with
its keys coerced to strings (`json.dump` writes non-string keys via `str`),
deduplicated keep-last in first-occurrence order (the semantics of parsing
a JSON object with repeated keys into a Python dict). -/
def roundTrip : PyVal → PyVal
| .none => .none
| .b v => .b v
| .int v => .int v
| .num v => .num v
| .str v => .str v
| .list xs => .list (rtList xs)
| .dict kvs => .dict (rtDict [] kvs)

/-- `roundTrip` mapped over the elements of a list value. -/
def rtList : List PyVal → List PyVal
| [] => []
| x :: xs => roundTrip x :: rtList xs

/-- Rebuild a dict from serialized entries, left to right, with Python dict
insertion semantics (`dictSet`): keys stringified, values round-tripped. -/
def rtDict (acc : List (PyKey × PyVal)) : List (PyKey × PyVal) → List (PyKey × PyVal)
| [] => acc
| kv :: kvs => rtDict (dictSet (PyKey.s kv.1.keyStr) (roundTrip kv.2) acc) kvs

end

/-- The Python value of an optional float field (`None` or a float). -/
def optQToPy : Option ℚ → PyVal
| Option.none => .none
| some q => .num q

/-- The Python value of an identifier (string or int). -/
def keyToPy : PyKey → PyVal
| .s v => .str v
| .i v => .int v

/-- The Python value of an optional identifier field. -/
def optKeyToPy : Option PyKey → PyVal
| Option.none => .none
| some k => keyToPy k

/-- The Python value of an optional int field. -/
def optIntToPy : Option Int → PyVal
| Option.none => .none
| some n => .int n

/-- The Python value of an optional string field. -/
def optStrToPy : Option String → PyVal
| Option.none => .none
| some v => .str v

/-- The in-memory dict behind a `player_data` entry (lines 59-69). -/
def playerToPy (r : PlayerRecord) : PyVal :=
  .dict [ (.s "frame", .int r.frame)
        , (.s "player_id", keyToPy r.player_id)
        , (.s "team", .str r.team)
        , (.s "x_min", optQToPy r.x_min)
        , (.s "y_min", optQToPy r.y_min)
        , (.s "x_max", optQToPy r.x_max)
        , (.s "y_max", optQToPy r.y_max)
        , (.s "has_ball", .b r.has_ball)
        , (.s "timestamp", .num r.timestamp) ]

/-- The in-memory dict behind a `ball_data` entry (lines 85-94). -/
def ballToPy (r : BallRecord) : PyVal :=
  .dict [ (.s "frame", .int r.frame)
        , (.s "x_min", optQToPy r.x_min)
        , (.s "y_min", optQToPy r.y_min)
        , (.s "x_max", optQToPy r.x_max)
        , (.s "y_max", optQToPy r.y_max)
        , (.s "center_x", optQToPy r.center_x)
        , (.s "center_y", optQToPy r.center_y)
        , (.s "timestamp", .num r.timestamp) ]

/-- The in-memory dict behind a `pass_data` entry (lines 106-118). -/
def passToPy (r : PassRecord) : PyVal :=
  .dict [ (.s "pass_id", .int r.pass_id)
        , (.s "start_frame", optIntToPy r.start_frame)
        , (.s "end_frame", optIntToPy r.end_frame)
        , (.s "passer_id", optKeyToPy r.passer_id)
        , (.s "receiver_id", optKeyToPy r.receiver_id)
        , (.s "passer_team", optStrToPy r.passer_team)
        , (.s "receiver_team", optStrToPy r.receiver_team)
        , (.s "pass_type", .str r.pass_type)
        , (.s "start_timestamp", .num r.start_timestamp)
        , (.s "end_timestamp", .num r.end_timestamp)
        , (.s "duration", .num r.duration) ]

/-- The in-memory dict behind an `interception_data` entry (lines 130-137). -/
def interceptionToPy (r : InterceptionRecord) : PyVal :=
  .dict [ (.s "interception_id", .int r.interception_id)
        , (.s "frame", optIntToPy r.frame)
        , (.s "interceptor_id", optKeyToPy r.interceptor_id)
        , (.s "interceptor_team", optStrToPy r.interceptor_team)
        , (.s "original_team", optStrToPy r.original_team)
        , (.s "timestamp", .num r.timestamp) ]

/-- The in-memory dict behind a `speed_data` entry (lines 152-158). -/
def speedToPy (r : SpeedRecord) : PyVal :=
  .dict [ (.s "frame", .int r.frame)
        , (.s "player_id", keyToPy r.player_id)
        , (.s "speed_mps", .num r.speed_mps)
        , (.s "speed_kmh", .num r.speed_kmh)
        , (.s "timestamp", .num r.timestamp) ]

/-- The in-memory dict behind a `team_possession_data` entry (lines
179-184); `possession_data` is a nested dict keyed by player identifiers. -/
def teamPossessionToPy (r : TeamPossessionRecord) : PyVal :=
  .dict [ (.s "frame", .int r.frame)
        , (.s "possession_data", .dict (r.possession_data.map (fun kv => (kv.1, PyVal.int kv.2))))
        , (.s "total_players_with_ball", .int (r.total_players_with_ball : Int))
        , (.s "timestamp", .num r.timestamp) ]

/-- The root object written by `save_to_json` (lines 203-217):
a metadata block plus the six raw collections. `extraction_time` is the
`datetime.now().isoformat()` string, passed in as a parameter. -/
def save_to_json_root (extraction_time : String) (s : Extractor) : PyVal :=
  .dict [ (.s "metadata", .dict
            [ (.s "extraction_time", .str extraction_time)
            , (.s "total_frames", .int (if s.player_data.isEmpty then 0 else (s.player_data.length / 10 : Nat)))
            , (.s "total_players", .int ((s.player_data.map PlayerRecord.player_id).dedup.length : Int))
            , (.s "total_passes", .int (s.pass_data.length : Int))
            , (.s "total_interceptions", .int (s.interception_data.length : Int)) ])
        , (.s "player_data", .list (s.player_data.map playerToPy))
        , (.s "ball_data", .list (s.ball_data.map ballToPy))
        , (.s "pass_data", .list (s.pass_data.map passToPy))
        , (.s "interception_data", .list (s.interception_data.map interceptionToPy))
        , (.s "speed_data", .list (s.speed_data.map speedToPy))
        , (.s "team_possession_data", .list (s.team_possession_data.map teamPossessionToPy)) ]

/-- Dict item access with string key, `v[k]` (total: `None` off-dict). -/
def PyVal.item (k : String) : PyVal → PyVal
| .dict kvs => (pyGet? (PyKey.s k) kvs).getD .none
| _ => .none

/-- First element of a list value (total: `None` otherwise). -/
def PyVal.first : PyVal → PyVal
| .list (x :: _) => x
| _ => .none

/-- The keys of a dict value. -/
def PyVal.dictKeys : PyVal → List PyKey
| .dict kvs => kvs.map (fun kv => kv.1)
| _ => []

theorem mkPlayerEntry_frame (f : Int) (pid : PyKey) (ti : TrackInfo)
    (a : List (PyKey × String)) (p : Acquisition) :
    (mkPlayerEntry f pid ti a p).frame = f := by
  unfold mkPlayerEntry
  split <;> split <;> rfl

theorem mkPlayerEntry_timestamp (f : Int) (pid : PyKey) (ti : TrackInfo)
    (a : List (PyKey × String)) (p : Acquisition) :
    (mkPlayerEntry f pid ti a p).timestamp = (f : ℚ) / 30 := by
  unfold mkPlayerEntry
  split <;> split <;> rfl

theorem mem_framePlayerRecs (f : Int) (tracks : List (PyKey × TrackInfo))
    (a : List (PyKey × String)) (p : Acquisition) (r : PlayerRecord)
    (hr : r ∈ framePlayerRecs f tracks a p) :
    r.frame = f ∧ r.timestamp = (f : ℚ) / 30 := by
  rcases List.mem_map.mp hr with ⟨kv, _, rfl⟩
  exact ⟨mkPlayerEntry_frame .., mkPlayerEntry_timestamp ..⟩

theorem mem_extractPlayerRecs_timestamp (fns : List Int) (i : Nat)
    (ts : List (List (PyKey × TrackInfo))) (asgs : List (List (PyKey × String)))
    (ps : List Acquisition) (r : PlayerRecord)
    (hr : r ∈ extractPlayerRecs fns i ts asgs ps) :
    r.timestamp = (r.frame : ℚ) / 30 := by
  induction ts generalizing i asgs ps with
  | nil => simp [extractPlayerRecs] at hr
  | cons t ts ih =>
    cases asgs with
    | nil => simp [extractPlayerRecs] at hr
    | cons a asgs =>
      cases ps with
      | nil => simp [extractPlayerRecs] at hr
      | cons p ps =>
        rw [extractPlayerRecs] at hr
        rcases List.mem_append.mp hr with h | h
        · rcases mem_framePlayerRecs _ _ _ _ _ h with ⟨h1, h2⟩
          rw [h1, h2]
        · exact ih _ _ _ h

theorem mkBallEntry_frame (f : Int) (bbox : List ℚ) : (mkBallEntry f bbox).frame = f := by
  unfold mkBallEntry
  split <;> rfl

theorem mkBallEntry_timestamp (f : Int) (bbox : List ℚ) :
    (mkBallEntry f bbox).timestamp = (f : ℚ) / 30 := by
  unfold mkBallEntry
  split <;> rfl

theorem mem_frameBallRecs (f : Int) (info : List (PyKey × TrackInfo)) (r : BallRecord)
    (hr : r ∈ frameBallRecs f info) :
    r.frame = f ∧ r.timestamp = (f : ℚ) / 30 := by
  unfold frameBallRecs at hr
  split at hr
  · simp at hr
  · split at hr
    · rcases List.mem_singleton.mp hr with rfl
      exact ⟨mkBallEntry_frame .., mkBallEntry_timestamp ..⟩
    · simp at hr

theorem mem_extractBallRecs_timestamp (fns : List Int) (i : Nat)
    (infos : List (List (PyKey × TrackInfo))) (r : BallRecord)
    (hr : r ∈ extractBallRecs fns i infos) :
    r.timestamp = (r.frame : ℚ) / 30 := by
  induction infos generalizing i with
  | nil => simp [extractBallRecs] at hr
  | cons info infos ih =>
    rw [extractBallRecs] at hr
    rcases List.mem_append.mp hr with h | h
    · rcases mem_frameBallRecs _ _ _ h with ⟨h1, h2⟩
      rw [h1, h2]
    · exact ih _ h

theorem mem_frameSpeedRecs (f : Int) (info : List (PyKey × ℚ)) (r : SpeedRecord)
    (hr : r ∈ frameSpeedRecs f info) :
    r.frame = f ∧ r.timestamp = (f : ℚ) / 30 := by
  rcases List.mem_map.mp hr with ⟨kv, _, rfl⟩
  exact ⟨rfl, rfl⟩

theorem mem_extractSpeedRecs_timestamp (fns : List Int) (i : Nat)
    (infos : List (List (PyKey × ℚ))) (r : SpeedRecord)
    (hr : r ∈ extractSpeedRecs fns i infos) :
    r.timestamp = (r.frame : ℚ) / 30 := by
  induction infos generalizing i with
  | nil => simp [extractSpeedRecs] at hr
  | cons info infos ih =>
    rw [extractSpeedRecs] at hr
    rcases List.mem_append.mp hr with h | h
    · rcases mem_frameSpeedRecs _ _ _ h with ⟨h1, h2⟩
      rw [h1, h2]
    · exact ih _ h

theorem mem_extractTeamPossessionRecs (fns : List Int) (i : Nat)
    (acqs : List Acquisition) (r : TeamPossessionRecord)
    (hr : r ∈ extractTeamPossessionRecs fns i acqs) :
    r.timestamp = (r.frame : ℚ) / 30 := by
  induction acqs generalizing i with
  | nil => simp [extractTeamPossessionRecs] at hr
  | cons acq acqs ih =>
    rw [extractTeamPossessionRecs] at hr
    rcases List.mem_cons.mp hr with rfl | hr
    · rfl
    · exact ih _ hr

theorem mem_passRecsFrom (n : Nat) (ps : List PassInfo) (r : PassRecord)
    (hr : r ∈ passRecsFrom n ps) :
    ∃ m p, r = mkPassEntry m p := by
  induction ps generalizing n with
  | nil => simp [passRecsFrom] at hr
  | cons p ps ih =>
    rw [passRecsFrom] at hr
    rcases List.mem_cons.mp hr with rfl | hr
    · exact ⟨n, p, rfl⟩
    · exact ih _ hr

theorem mem_interceptionRecsFrom (n : Nat) (infos : List InterceptionInfo)
    (r : InterceptionRecord) (hr : r ∈ interceptionRecsFrom n infos) :
    ∃ m info, r = mkInterceptionEntry m info := by
  induction infos generalizing n with
  | nil => simp [interceptionRecsFrom] at hr
  | cons info infos ih =>
    rw [interceptionRecsFrom] at hr
    rcases List.mem_cons.mp hr with rfl | hr
    · exact ⟨n, info, rfl⟩
    · exact ih _ hr

/-- Claim C1: every record produced by any extraction operation has its
frame-derived timestamp equal to its frame number divided by 30: player,
ball, speed, and team-possession records use the resolved frame number,
while pass records' start/end timestamps and interception records'
timestamps derive from the event's self-reported frames (defaulted to 0
when absent, matching `pass_info.get('start_frame', 0) / 30.0`). -/
theorem timestamp_is_frame_div_30 :
    (∀ (fns : List Int) (i : Nat) (ts : List (List (PyKey × TrackInfo)))
        (asgs : List (List (PyKey × String))) (ps : List Acquisition) (r : PlayerRecord),
        r ∈ extractPlayerRecs fns i ts asgs ps → r.timestamp = (r.frame : ℚ) / 30) ∧
    (∀ (fns : List Int) (i : Nat) (infos : List (List (PyKey × TrackInfo))) (r : BallRecord),
        r ∈ extractBallRecs fns i infos → r.timestamp = (r.frame : ℚ) / 30) ∧
    (∀ (fns : List Int) (i : Nat) (infos : List (List (PyKey × ℚ))) (r : SpeedRecord),
        r ∈ extractSpeedRecs fns i infos → r.timestamp = (r.frame : ℚ) / 30) ∧
    (∀ (fns : List Int) (i : Nat) (acqs : List Acquisition) (r : TeamPossessionRecord),
        r ∈ extractTeamPossessionRecs fns i acqs → r.timestamp = (r.frame : ℚ) / 30) ∧
    (∀ (n : Nat) (ps : List PassInfo) (r : PassRecord), r ∈ passRecsFrom n ps →
        r.start_timestamp = ((r.start_frame.getD 0 : Int) : ℚ) / 30 ∧
        r.end_timestamp = ((r.end_frame.getD 0 : Int) : ℚ) / 30) ∧
    (∀ (n : Nat) (infos : List InterceptionInfo) (r : InterceptionRecord),
        r ∈ interceptionRecsFrom n infos → r.timestamp = ((r.frame.getD 0 : Int) : ℚ) / 30) := by
  refine ⟨?_, ?_, ?_, ?_, ?_, ?_⟩
  · exact fun fns i ts asgs ps r hr => mem_extractPlayerRecs_timestamp fns i ts asgs ps r hr
  · exact fun fns i infos r hr => mem_extractBallRecs_timestamp fns i infos r hr
  · exact fun fns i infos r hr => mem_extractSpeedRecs_timestamp fns i infos r hr
  · exact fun fns i acqs r hr => mem_extractTeamPossessionRecs fns i acqs r hr
  · intro n ps r hr
    rcases mem_passRecsFrom n ps r hr with ⟨m, p, rfl⟩
    exact ⟨rfl, rfl⟩
  · intro n infos r hr
    rcases mem_interceptionRecsFrom n infos r hr with ⟨m, info, rfl⟩
    rfl

/-- Witness for C1 at a concrete input: one player record produced from
frame number 30 with a full box. -/
theorem timestamp_is_frame_div_30_witness :
    (mkPlayerEntry 30 (PyKey.s "p1") (TrackInfo.mk (some [0, 0, 10, 10])) []
        Acquisition.otherA).timestamp
      = ((mkPlayerEntry 30 (PyKey.s "p1") (TrackInfo.mk (some [0, 0, 10, 10])) []
          Acquisition.otherA).frame : ℚ) / 30 :=
  timestamp_is_frame_div_30.1 [30] 0
    [[(PyKey.s "p1", TrackInfo.mk (some [0, 0, 10, 10]))]] [[]] [Acquisition.otherA]
    (mkPlayerEntry 30 (PyKey.s "p1") (TrackInfo.mk (some [0, 0, 10, 10])) [] Acquisition.otherA)
    (by
      simp only [extractPlayerRecs, framePlayerRecs, List.map, List.append_nil,
        List.mem_singleton]
      rfl)

theorem mkPlayerEntry_team (f : Int) (pid : PyKey) (ti : TrackInfo)
    (a : List (PyKey × String)) (p : Acquisition) :
    (mkPlayerEntry f pid ti a p).team = pyGetD pid "Unknown" a := by
  unfold mkPlayerEntry
  split <;> split <;> rfl

theorem mkPlayerEntry_short_bbox (f : Int) (pid : PyKey) (ti : TrackInfo)
    (a : List (PyKey × String)) (p : Acquisition) (h : ti.bbox.length < 4) :
    (mkPlayerEntry f pid ti a p).x_min = none ∧ (mkPlayerEntry f pid ti a p).y_min = none ∧
    (mkPlayerEntry f pid ti a p).x_max = none ∧ (mkPlayerEntry f pid ti a p).y_max = none := by
  rcases hb : ti.bbox with _ | ⟨b0, _ | ⟨b1, _ | ⟨b2, _ | ⟨b3, rest⟩⟩⟩⟩
  · simp [mkPlayerEntry, hb]
  · simp [mkPlayerEntry, hb]
  · simp [mkPlayerEntry, hb]
  · simp [mkPlayerEntry, hb]
  · rw [hb] at h
    simp at h
    omega

/-- Claim C2: on the spec's concrete example — one frame with tracks
`{"p1": {"bbox": [0,0,10,10]}}`, assignment `{"p1": "Home"}`, possession
`["p1"]`, frame number 30 — `extract_player_data` appends exactly the record
`{frame: 30, player_id: "p1", team: "Home", x_min: 0, y_min: 0, x_max: 10,
y_max: 10, has_ball: true, timestamp: 1.0}`; in general the team defaults to
`"Unknown"` when the player is absent from the assignment, and all four
bounding-box fields are `None` whenever the source box has fewer than 4
components. -/
theorem extract_player_data_example_and_defaults :
    (extract_player_data Extractor.init
        [[(PyKey.s "p1", TrackInfo.mk (some [0, 0, 10, 10]))]]
        [[(PyKey.s "p1", "Home")]]
        [Acquisition.listA [PyKey.s "p1"]]
        [30]
      = { Extractor.init with player_data :=
            [{ frame := 30, player_id := PyKey.s "p1", team := "Home"
             , x_min := some 0, y_min := some 0, x_max := some 10, y_max := some 10
             , has_ball := true, timestamp := 1 }] }) ∧
    (∀ (f : Int) (pid : PyKey) (ti : TrackInfo) (a : List (PyKey × String)) (p : Acquisition),
        pyGet? pid a = none → (mkPlayerEntry f pid ti a p).team = "Unknown") ∧
    (∀ (f : Int) (pid : PyKey) (ti : TrackInfo) (a : List (PyKey × String)) (p : Acquisition),
        ti.bbox.length < 4 →
          (mkPlayerEntry f pid ti a p).x_min = none ∧ (mkPlayerEntry f pid ti a p).y_min = none ∧
          (mkPlayerEntry f pid ti a p).x_max = none ∧ (mkPlayerEntry f pid ti a p).y_max = none) := by
  refine ⟨?_, ?_, ?_⟩
  · norm_num [extract_player_data, extractPlayerRecs, framePlayerRecs, mkPlayerEntry,
      resolveFrame, pyGetD, pyGet?, TrackInfo.bbox, Extractor.init]
  · intro f pid ti a p h
    rw [mkPlayerEntry_team]
    simp [pyGetD, h]
  · exact fun f pid ti a p h => mkPlayerEntry_short_bbox f pid ti a p h

/-- Witness for C2: the team of an unassigned player is `"Unknown"`, and a
two-component box yields four `None` box fields. -/
theorem extract_player_data_example_and_defaults_witness :
    (mkPlayerEntry 0 (PyKey.s "p9") (TrackInfo.mk (some [1, 2])) [] Acquisition.otherA).team
        = "Unknown" ∧
    (mkPlayerEntry 0 (PyKey.s "p9") (TrackInfo.mk (some [1, 2])) [] Acquisition.otherA).x_min
        = none :=
  ⟨extract_player_data_example_and_defaults.2.1 0 (PyKey.s "p9")
      (TrackInfo.mk (some [1, 2])) [] Acquisition.otherA (by decide),
   (extract_player_data_example_and_defaults.2.2 0 (PyKey.s "p9")
      (TrackInfo.mk (some [1, 2])) [] Acquisition.otherA (by decide)).1⟩

theorem mkPlayerEntry_has_ball (f : Int) (pid : PyKey) (ti : TrackInfo)
    (a : List (PyKey × String)) (p : Acquisition) :
    (mkPlayerEntry f pid ti a p).has_ball
      = match p with
        | .dictA ks => decide (pid ∈ ks)
        | .listA xs => decide (pid ∈ xs)
        | .otherA => false := by
  unfold mkPlayerEntry
  split <;> split <;> rfl

/-- Claim C3: in `extract_player_data`, the has-ball flag is a membership
test of the player identifier against the frame's possession value when that
value is a mapping with player keys or a sequence of players, and is false
for any other shape; the embedding is total, so no error is raised in any
case. -/
theorem has_ball_is_possession_membership :
    (∀ (f : Int) (pid : PyKey) (ti : TrackInfo) (a : List (PyKey × String)) (ks : List PyKey),
        ((mkPlayerEntry f pid ti a (Acquisition.dictA ks)).has_ball = true ↔ pid ∈ ks)) ∧
    (∀ (f : Int) (pid : PyKey) (ti : TrackInfo) (a : List (PyKey × String)) (xs : List PyKey),
        ((mkPlayerEntry f pid ti a (Acquisition.listA xs)).has_ball = true ↔ pid ∈ xs)) ∧
    (∀ (f : Int) (pid : PyKey) (ti : TrackInfo) (a : List (PyKey × String)),
        (mkPlayerEntry f pid ti a Acquisition.otherA).has_ball = false) := by
  refine ⟨?_, ?_, ?_⟩
  · intro f pid ti a ks
    rw [mkPlayerEntry_has_ball]
    exact decide_eq_true_iff
  · intro f pid ti a xs
    rw [mkPlayerEntry_has_ball]
    exact decide_eq_true_iff
  · intro f pid ti a
    rw [mkPlayerEntry_has_ball]

theorem mem_frameSpeedRecs_frame (f : Int) (info : List (PyKey × ℚ)) (r : SpeedRecord)
    (hr : r ∈ frameSpeedRecs f info) : r.frame = f :=
  (mem_frameSpeedRecs f info r hr).1

/-- Claim C4: for every frame-indexed extraction operation, when the frame
index `i` is at or beyond the end of the frame-numbers list, the resolved
frame number — and hence the frame number of every record produced for that
index — is `i` itself; the index fallback is total, so a frame-numbers list
shorter than the per-frame data lists causes no out-of-bounds access. -/
theorem frame_fallback_beyond_frame_numbers :
    (∀ (fns : List Int) (i : Nat), fns.length ≤ i → resolveFrame fns i = (i : Int)) ∧
    (∀ (fns : List Int) (i : Nat) (tracks : List (PyKey × TrackInfo))
        (a : List (PyKey × String)) (p : Acquisition) (r : PlayerRecord), fns.length ≤ i →
        r ∈ framePlayerRecs (resolveFrame fns i) tracks a p → r.frame = (i : Int)) ∧
    (∀ (fns : List Int) (i : Nat) (info : List (PyKey × TrackInfo)) (r : BallRecord),
        fns.length ≤ i →
        r ∈ frameBallRecs (resolveFrame fns i) info → r.frame = (i : Int)) ∧
    (∀ (fns : List Int) (i : Nat) (info : List (PyKey × ℚ)) (r : SpeedRecord),
        fns.length ≤ i →
        r ∈ frameSpeedRecs (resolveFrame fns i) info → r.frame = (i : Int)) ∧
    (∀ (fns : List Int) (i : Nat) (poss : Acquisition), fns.length ≤ i →
        (mkTeamPossessionEntry (resolveFrame fns i) poss).frame = (i : Int)) := by
  have hres : ∀ (fns : List Int) (i : Nat), fns.length ≤ i → resolveFrame fns i = (i : Int) :=
    fun fns i h => List.getD_eq_default fns _ h
  refine ⟨hres, ?_, ?_, ?_, ?_⟩
  · intro fns i tracks a p r h hr
    rw [(mem_framePlayerRecs _ _ _ _ _ hr).1, hres fns i h]
  · intro fns i info r h hr
    rw [(mem_frameBallRecs _ _ _ hr).1, hres fns i h]
  · intro fns i info r h hr
    rw [mem_frameSpeedRecs_frame _ _ _ hr, hres fns i h]
  · intro fns i poss h
    rw [show (mkTeamPossessionEntry (resolveFrame fns i) poss).frame = resolveFrame fns i from rfl,
      hres fns i h]

/-- Witness for C4: with an empty frame-numbers list, index 5 resolves to
frame 5, and a speed record produced at index 5 carries frame 5. -/
theorem frame_fallback_beyond_frame_numbers_witness :
    resolveFrame [] 5 = 5 ∧
    (mkSpeedEntry (resolveFrame [] 5) (PyKey.s "p1") 4).frame = 5 :=
  ⟨frame_fallback_beyond_frame_numbers.1 [] 5 (by decide),
   frame_fallback_beyond_frame_numbers.2.2.2.1 [] 5 [(PyKey.s "p1", 4)]
     (mkSpeedEntry (resolveFrame [] 5) (PyKey.s "p1") 4) (by decide)
     (by simp [frameSpeedRecs])⟩

theorem mkBallEntry_short_bbox (f : Int) (bbox : List ℚ) (h : bbox.length < 4) :
    (mkBallEntry f bbox).x_min = none ∧ (mkBallEntry f bbox).y_min = none ∧
    (mkBallEntry f bbox).x_max = none ∧ (mkBallEntry f bbox).y_max = none ∧
    (mkBallEntry f bbox).center_x = none ∧ (mkBallEntry f bbox).center_y = none := by
  rcases bbox with _ | ⟨b0, _ | ⟨b1, _ | ⟨b2, _ | ⟨b3, rest⟩⟩⟩⟩
  · simp [mkBallEntry]
  · simp [mkBallEntry]
  · simp [mkBallEntry]
  · simp [mkBallEntry]
  · simp at h
    omega

/-- Claim C5: `extract_ball_data` appends a record for a frame if and only
if that frame's ball-track entry is non-empty and contains the key `1`; on
the spec's example `{1: {"bbox": [2,2,6,6]}}` at frame 0 the record has
center 4,4 and timestamp 0; an emitted record with a box of at least 4
components has `center_x = (x_min + x_max)/2` and
`center_y = (y_min + y_max)/2`; with fewer than 4 components the record is
still emitted (the guard never inspects the box) with all box and center
fields `None`. -/
theorem extract_ball_data_emission_and_center :
    (extract_ball_data Extractor.init [[(PyKey.i 1, TrackInfo.mk (some [2, 2, 6, 6]))]] [0]
      = { Extractor.init with ball_data :=
            [{ frame := 0, x_min := some 2, y_min := some 2, x_max := some 6, y_max := some 6
             , center_x := some 4, center_y := some 4, timestamp := 0 }] }) ∧
    (∀ (f : Int) (info : List (PyKey × TrackInfo)),
        frameBallRecs f info ≠ [] ↔ (info ≠ [] ∧ (pyGet? (PyKey.i 1) info).isSome = true)) ∧
    (∀ (f : Int) (info : List (PyKey × TrackInfo)) (t : TrackInfo),
        info ≠ [] → pyGet? (PyKey.i 1) info = some t →
          frameBallRecs f info = [mkBallEntry f t.bbox]) ∧
    (∀ (f : Int) (b0 b1 b2 b3 : ℚ) (rest : List ℚ),
        (mkBallEntry f (b0 :: b1 :: b2 :: b3 :: rest)).center_x = some ((b0 + b2) / 2) ∧
        (mkBallEntry f (b0 :: b1 :: b2 :: b3 :: rest)).center_y = some ((b1 + b3) / 2)) ∧
    (∀ (f : Int) (bbox : List ℚ), bbox.length < 4 →
        (mkBallEntry f bbox).x_min = none ∧ (mkBallEntry f bbox).y_min = none ∧
        (mkBallEntry f bbox).x_max = none ∧ (mkBallEntry f bbox).y_max = none ∧
        (mkBallEntry f bbox).center_x = none ∧ (mkBallEntry f bbox).center_y = none) := by
  refine ⟨?_, ?_, ?_, ?_, ?_⟩
  · norm_num [extract_ball_data, extractBallRecs, frameBallRecs, mkBallEntry, resolveFrame,
      pyGet?, TrackInfo.bbox, Extractor.init]
  · intro f info
    rcases info with _ | ⟨kv, rest⟩
    · simp [frameBallRecs]
    · rcases hg : pyGet? (PyKey.i 1) (kv :: rest) with _ | t
      · simp [frameBallRecs, hg]
      · simp [frameBallRecs, hg]
  · intro f info t hne hg
    unfold frameBallRecs
    rw [if_neg (by simp [List.isEmpty_iff, hne]), hg]
  · intro f b0 b1 b2 b3 rest
    exact ⟨rfl, rfl⟩
  · exact fun f bbox h => mkBallEntry_short_bbox f bbox h

/-- Witness for C5: an entry carrying key `1` with a one-component box still
yields a record, with all box and center fields `None`. -/
theorem extract_ball_data_emission_and_center_witness :
    frameBallRecs 7 [(PyKey.i 1, TrackInfo.mk (some [5]))]
        = [mkBallEntry 7 (TrackInfo.mk (some [5])).bbox] ∧
    (mkBallEntry 7 ((5 : ℚ) :: [])).center_x = none :=
  ⟨extract_ball_data_emission_and_center.2.2.1 7 [(PyKey.i 1, TrackInfo.mk (some [5]))]
      (TrackInfo.mk (some [5])) (by decide) (by decide),
   (extract_ball_data_emission_and_center.2.2.2.2 7 ((5 : ℚ) :: []) (by decide)).2.2.2.2.1⟩

/-- Claim C6: `extract_pass_data` and `extract_interception_data` accept a
frame-numbers argument but never consult it: for any two values of that
argument the resulting state is identical. -/
theorem pass_and_interception_ignore_frame_numbers :
    ∀ (s : Extractor) (passes : List PassInfo) (interceptions : List InterceptionInfo)
      (fns fns' : List Int),
      extract_pass_data s passes fns = extract_pass_data s passes fns' ∧
      extract_interception_data s interceptions fns = extract_interception_data s interceptions fns' :=
  fun _ _ _ _ _ => ⟨rfl, rfl⟩

/-- Claim C8: every extraction operation appends records to its own
dedicated collection only: the other five collections are unchanged by the
call, and the target collection is the previous list with the new records
appended after it, so every record present before the call is unchanged. -/
theorem extraction_appends_only_its_collection :
    ∀ (s : Extractor) (pt : List (List (PyKey × TrackInfo))) (pa : List (List (PyKey × String)))
      (acq : List Acquisition) (bt : List (List (PyKey × TrackInfo)))
      (passes : List PassInfo) (ints : List InterceptionInfo)
      (sp : List (List (PyKey × ℚ))) (fns : List Int),
      ((extract_player_data s pt pa acq fns).ball_data = s.ball_data ∧
       (extract_player_data s pt pa acq fns).pass_data = s.pass_data ∧
       (extract_player_data s pt pa acq fns).interception_data = s.interception_data ∧
       (extract_player_data s pt pa acq fns).speed_data = s.speed_data ∧
       (extract_player_data s pt pa acq fns).team_possession_data = s.team_possession_data ∧
       ∃ new, (extract_player_data s pt pa acq fns).player_data = s.player_data ++ new) ∧
      ((extract_ball_data s bt fns).player_data = s.player_data ∧
       (extract_ball_data s bt fns).pass_data = s.pass_data ∧
       (extract_ball_data s bt fns).interception_data = s.interception_data ∧
       (extract_ball_data s bt fns).speed_data = s.speed_data ∧
       (extract_ball_data s bt fns).team_possession_data = s.team_possession_data ∧
       ∃ new, (extract_ball_data s bt fns).ball_data = s.ball_data ++ new) ∧
      ((extract_pass_data s passes fns).player_data = s.player_data ∧
       (extract_pass_data s passes fns).ball_data = s.ball_data ∧
       (extract_pass_data s passes fns).interception_data = s.interception_data ∧
       (extract_pass_data s passes fns).speed_data = s.speed_data ∧
       (extract_pass_data s passes fns).team_possession_data = s.team_possession_data ∧
       ∃ new, (extract_pass_data s passes fns).pass_data = s.pass_data ++ new) ∧
      ((extract_interception_data s ints fns).player_data = s.player_data ∧
       (extract_interception_data s ints fns).ball_data = s.ball_data ∧
       (extract_interception_data s ints fns).pass_data = s.pass_data ∧
       (extract_interception_data s ints fns).speed_data = s.speed_data ∧
       (extract_interception_data s ints fns).team_possession_data = s.team_possession_data ∧
       ∃ new, (extract_interception_data s ints fns).interception_data
                = s.interception_data ++ new) ∧
      ((extract_speed_data s sp fns).player_data = s.player_data ∧
       (extract_speed_data s sp fns).ball_data = s.ball_data ∧
       (extract_speed_data s sp fns).pass_data = s.pass_data ∧
       (extract_speed_data s sp fns).interception_data = s.interception_data ∧
       (extract_speed_data s sp fns).team_possession_data = s.team_possession_data ∧
       ∃ new, (extract_speed_data s sp fns).speed_data = s.speed_data ++ new) ∧
      ((extract_team_possession_data s acq fns).player_data = s.player_data ∧
       (extract_team_possession_data s acq fns).ball_data = s.ball_data ∧
       (extract_team_possession_data s acq fns).pass_data = s.pass_data ∧
       (extract_team_possession_data s acq fns).interception_data = s.interception_data ∧
       (extract_team_possession_data s acq fns).speed_data = s.speed_data ∧
       ∃ new, (extract_team_possession_data s acq fns).team_possession_data
                = s.team_possession_data ++ new) := by
  intro s pt pa acq bt passes ints sp fns
  exact ⟨⟨rfl, rfl, rfl, rfl, rfl, _, rfl⟩, ⟨rfl, rfl, rfl, rfl, rfl, _, rfl⟩,
         ⟨rfl, rfl, rfl, rfl, rfl, _, rfl⟩, ⟨rfl, rfl, rfl, rfl, rfl, _, rfl⟩,
         ⟨rfl, rfl, rfl, rfl, rfl, _, rfl⟩, ⟨rfl, rfl, rfl, rfl, rfl, _, rfl⟩⟩

/-- Claim C10: a pass dict missing `start_frame` (resp. `end_frame`) yields
a record whose `start_frame` (resp. `end_frame`) field is `None` while the
corresponding timestamp is 0, the missing frame being treated as 0 in the
timestamp and duration arithmetic; an interception dict missing `frame`
yields a record with frame `None` and timestamp 0. -/
theorem missing_event_frames_default_to_zero :
    (∀ (n : Nat) (p : PassInfo), p.start_frame? = none →
        (mkPassEntry n p).start_frame = none ∧ (mkPassEntry n p).start_timestamp = 0 ∧
        (mkPassEntry n p).duration = ((p.end_frame?.getD 0 : Int) : ℚ) / 30) ∧
    (∀ (n : Nat) (p : PassInfo), p.end_frame? = none →
        (mkPassEntry n p).end_frame = none ∧ (mkPassEntry n p).end_timestamp = 0 ∧
        (mkPassEntry n p).duration = ((0 - p.start_frame?.getD 0 : Int) : ℚ) / 30) ∧
    (∀ (n : Nat) (info : InterceptionInfo), info.frame? = none →
        (mkInterceptionEntry n info).frame = none ∧ (mkInterceptionEntry n info).timestamp = 0) := by
  refine ⟨?_, ?_, ?_⟩
  · intro n p h
    refine ⟨by simp [mkPassEntry, h], by simp [mkPassEntry, h], by simp [mkPassEntry, h]⟩
  · intro n p h
    refine ⟨by simp [mkPassEntry, h], by simp [mkPassEntry, h], by simp [mkPassEntry, h]⟩
  · intro n info h
    exact ⟨by simp [mkInterceptionEntry, h], by simp [mkInterceptionEntry, h]⟩

/-- Witness for C10: the empty pass dict and the empty interception dict. -/
theorem missing_event_frames_default_to_zero_witness :
    (mkPassEntry 0 (PassInfo.mk none none none none none none none none)).start_frame = none ∧
    (mkPassEntry 0 (PassInfo.mk none none none none none none none none)).start_timestamp = 0 ∧
    (mkInterceptionEntry 0 (InterceptionInfo.mk none none none none none)).timestamp = 0 :=
  ⟨(missing_event_frames_default_to_zero.1 0
      (PassInfo.mk none none none none none none none none) rfl).1,
   (missing_event_frames_default_to_zero.1 0
      (PassInfo.mk none none none none none none none none) rfl).2.1,
   (missing_event_frames_default_to_zero.2.2 0
      (InterceptionInfo.mk none none none none none) rfl).2⟩

theorem speedsOf_cons (pid : PyKey) (e : SpeedRecord) (recs : List SpeedRecord) :
    speedsOf pid (e :: recs)
      = if e.player_id = pid then e.speed_mps :: speedsOf pid recs else speedsOf pid recs := by
  by_cases h : e.player_id = pid <;> simp [speedsOf, List.filter_cons, h]

theorem pyGet?_addSpeed (acc : List (PyKey × List ℚ)) (pid k : PyKey) (v : ℚ) :
    pyGet? k (addSpeed acc pid v)
      = if pid = k then some ((pyGet? k acc).getD [] ++ [v]) else pyGet? k acc := by
  induction acc with
  | nil => by_cases h : pid = k <;> simp [addSpeed, pyGet?, h]
  | cons kv rest ih =>
    simp only [addSpeed]
    by_cases h1 : kv.1 = pid
    · rw [if_pos h1]
      by_cases h2 : kv.1 = k
      · simp [pyGet?, h2, h1.symm.trans h2]
      · have hpk : ¬ pid = k := fun he => h2 (h1.trans he)
        simp [pyGet?, h2, hpk]
    · rw [if_neg h1]
      by_cases h2 : kv.1 = k
      · have hpk : ¬ pid = k := fun he => h1 (h2.trans he.symm)
        simp [pyGet?, h2, hpk]
      · simp [pyGet?, h2, ih]

theorem mem_keys_addSpeed (acc : List (PyKey × List ℚ)) (pid k : PyKey) (v : ℚ) :
    k ∈ (addSpeed acc pid v).map Prod.fst ↔ k ∈ acc.map Prod.fst ∨ k = pid := by
  induction acc with
  | nil => simp [addSpeed]
  | cons kv rest ih =>
    simp only [addSpeed]
    by_cases h1 : kv.1 = pid
    · rw [if_pos h1]
      simp [h1]
      tauto
    · rw [if_neg h1]
      simp [ih]
      tauto

theorem addSpeed_keys_nodup (acc : List (PyKey × List ℚ)) (pid : PyKey) (v : ℚ)
    (h : (acc.map Prod.fst).Nodup) : ((addSpeed acc pid v).map Prod.fst).Nodup := by
  induction acc with
  | nil => simp [addSpeed]
  | cons kv rest ih =>
    rw [List.map_cons] at h
    rcases List.nodup_cons.mp h with ⟨hk, hrest⟩
    simp only [addSpeed]
    by_cases h1 : kv.1 = pid
    · rw [if_pos h1]
      simpa using List.nodup_cons.mpr ⟨hk, hrest⟩
    · rw [if_neg h1]
      simp only [List.map_cons, List.nodup_cons]
      refine ⟨?_, ih hrest⟩
      rw [mem_keys_addSpeed]
      rintro (hmem | rfl)
      · exact hk hmem
      · exact h1 rfl

theorem pyGet?_of_mem_nodup {α : Type} (l : List (PyKey × α)) (kv : PyKey × α)
    (h : kv ∈ l) (hnd : (l.map Prod.fst).Nodup) : pyGet? kv.1 l = some kv.2 := by
  induction l with
  | nil => simp at h
  | cons kv' rest ih =>
    rcases List.mem_cons.mp h with rfl | hmem
    · simp [pyGet?]
    · simp only [List.map_cons, List.nodup_cons] at hnd
      have hne : ¬ kv'.1 = kv.1 := by
        intro he
        rw [he] at hnd
        exact hnd.1 (List.mem_map.mpr ⟨kv, hmem, rfl⟩)
      simp [pyGet?, hne, ih hmem hnd.2]

theorem pyGet?_foldl_addSpeed_some (recs : List SpeedRecord) :
    ∀ (acc : List (PyKey × List ℚ)) (pid : PyKey) (vs : List ℚ),
      pyGet? pid acc = some vs →
      pyGet? pid (recs.foldl (fun acc e => addSpeed acc e.player_id e.speed_mps) acc)
        = some (vs ++ speedsOf pid recs) := by
  induction recs with
  | nil =>
    intro acc pid vs h
    simpa [speedsOf] using h
  | cons e recs ih =>
    intro acc pid vs h
    rw [List.foldl_cons, speedsOf_cons]
    by_cases he : e.player_id = pid
    · rw [if_pos he]
      have h1 : pyGet? pid (addSpeed acc e.player_id e.speed_mps) = some (vs ++ [e.speed_mps]) := by
        rw [pyGet?_addSpeed, if_pos he, h]
        rfl
      rw [ih _ _ _ h1, List.append_assoc]
      rfl
    · rw [if_neg he]
      have h1 : pyGet? pid (addSpeed acc e.player_id e.speed_mps) = some vs := by
        rw [pyGet?_addSpeed, if_neg he, h]
      exact ih _ _ _ h1

theorem pyGet?_foldl_addSpeed_none (recs : List SpeedRecord) :
    ∀ (acc : List (PyKey × List ℚ)) (pid : PyKey),
      pyGet? pid acc = none →
      pyGet? pid (recs.foldl (fun acc e => addSpeed acc e.player_id e.speed_mps) acc)
        = if speedsOf pid recs = [] then none else some (speedsOf pid recs) := by
  induction recs with
  | nil =>
    intro acc pid h
    simpa [speedsOf] using h
  | cons e recs ih =>
    intro acc pid h
    rw [List.foldl_cons, speedsOf_cons]
    by_cases he : e.player_id = pid
    · rw [if_pos he]
      have h1 : pyGet? pid (addSpeed acc e.player_id e.speed_mps) = some [e.speed_mps] := by
        rw [pyGet?_addSpeed, if_pos he, h]
        rfl
      rw [pyGet?_foldl_addSpeed_some recs _ _ _ h1]
      simp
    · rw [if_neg he]
      exact ih _ _ (by rw [pyGet?_addSpeed, if_neg he, h])

theorem foldl_addSpeed_keys_nodup (recs : List SpeedRecord) :
    ∀ acc : List (PyKey × List ℚ), (acc.map Prod.fst).Nodup →
      ((recs.foldl (fun acc e => addSpeed acc e.player_id e.speed_mps) acc).map Prod.fst).Nodup := by
  induction recs with
  | nil =>
    intro acc h
    simpa using h
  | cons e recs ih =>
    intro acc h
    rw [List.foldl_cons]
    exact ih _ (addSpeed_keys_nodup _ _ _ h)

theorem mem_groupSpeeds (recs : List SpeedRecord) (kv : PyKey × List ℚ)
    (h : kv ∈ groupSpeeds recs) : kv.2 = speedsOf kv.1 recs := by
  have hnd : ((groupSpeeds recs).map Prod.fst).Nodup :=
    foldl_addSpeed_keys_nodup recs [] (by simp)
  have hlk := pyGet?_of_mem_nodup _ kv h hnd
  have hlk2 : (if speedsOf kv.1 recs = [] then none else some (speedsOf kv.1 recs))
      = some kv.2 := by
    rw [← pyGet?_foldl_addSpeed_none recs [] kv.1 rfl]
    exact hlk
  by_cases hs : speedsOf kv.1 recs = []
  · rw [if_pos hs] at hlk2
    cases hlk2
  · rw [if_neg hs] at hlk2
    injection hlk2 with h2
    exact h2.symm

/-- Claim C9: `generate_summary_report` on a state with zero player records
returns distinct-frame count 0, distinct-player count 0 and duration 0 (the
function is total, so nothing is raised); the per-player average-speed
mapping is present if and only if at least one speed record exists, and
each present entry is the arithmetic mean of that player's recorded speeds
in m/s. -/
theorem summary_empty_and_average_speeds :
    (∀ s : Extractor, s.player_data = [] →
        (generate_summary_report s).total_frames_analyzed = 0 ∧
        (generate_summary_report s).total_players_detected = 0 ∧
        (generate_summary_report s).analysis_duration_seconds = 0) ∧
    (∀ s : Extractor,
        (generate_summary_report s).average_player_speeds ≠ none ↔ s.speed_data ≠ []) ∧
    (∀ (s : Extractor) (g : List (PyKey × ℚ)) (kv : PyKey × ℚ),
        (generate_summary_report s).average_player_speeds = some g → kv ∈ g →
        kv.2 = (speedsOf kv.1 s.speed_data).sum
                / ((speedsOf kv.1 s.speed_data).length : ℚ)) := by
  refine ⟨?_, ?_, ?_⟩
  · intro s h
    refine ⟨?_, ?_, ?_⟩ <;> simp [generate_summary_report, h]
  · intro s
    rcases h : s.speed_data with _ | ⟨e, rest⟩ <;> simp [generate_summary_report, h]
  · intro s g kv hg hkv
    have hg2 : g = avgSpeeds (groupSpeeds s.speed_data) := by
      rcases h : s.speed_data.isEmpty with _ | _
      · rw [generate_summary_report] at hg
        simp only [h, Bool.false_eq_true, if_false] at hg
        injection hg with h2
        rw [h2]
      · rw [generate_summary_report] at hg
        simp only [h, if_true] at hg
        cases hg
    rw [hg2] at hkv
    rcases List.mem_map.mp hkv with ⟨kv', hkv', rfl⟩
    simp only
    rw [mem_groupSpeeds s.speed_data kv' hkv']

/-- Witness for C9: a state with no player records and one speed record
(player `"p1"`, 5 m/s). -/
theorem summary_empty_and_average_speeds_witness :
    (generate_summary_report { Extractor.init with
        speed_data := [mkSpeedEntry 0 (PyKey.s "p1") 5] }).total_frames_analyzed = 0 ∧
    ((PyKey.s "p1", (5 : ℚ)) : PyKey × ℚ).2
      = (speedsOf (PyKey.s "p1") [mkSpeedEntry 0 (PyKey.s "p1") 5]).sum
          / ((speedsOf (PyKey.s "p1") [mkSpeedEntry 0 (PyKey.s "p1") 5]).length : ℚ) :=
  ⟨(summary_empty_and_average_speeds.1 { Extractor.init with
        speed_data := [mkSpeedEntry 0 (PyKey.s "p1") 5] } rfl).1,
   summary_empty_and_average_speeds.2.2 { Extractor.init with
        speed_data := [mkSpeedEntry 0 (PyKey.s "p1") 5] }
     [(PyKey.s "p1", (5 : ℚ))] (PyKey.s "p1", (5 : ℚ))
     (by norm_num [generate_summary_report, groupSpeeds, addSpeed, avgSpeeds,
        mkSpeedEntry, Extractor.init])
     (by simp)⟩

/-- Whether a key is a Python string (`json.dump` writes it unchanged). -/
def PyKey.isStr : PyKey → Bool
| .s _ => true
| .i _ => false

theorem dictSet_append {α : Type} (k : PyKey) (v : α) (acc : List (PyKey × α))
    (h : k ∉ acc.map Prod.fst) : dictSet k v acc = acc ++ [(k, v)] := by
  induction acc with
  | nil => rfl
  | cons kv rest ih =>
    rw [List.map_cons, List.mem_cons] at h
    rw [dictSet, if_neg (fun he => h (Or.inl he.symm)), ih (fun hm => h (Or.inr hm))]
    rfl

theorem rtDict_eq_append (kvs : List (PyKey × PyVal)) :
    ∀ acc : List (PyKey × PyVal),
      (∀ kv ∈ kvs, (PyKey.s kv.1.keyStr) ∉ acc.map Prod.fst) →
      (kvs.map (fun kv => PyKey.s kv.1.keyStr)).Nodup →
      rtDict acc kvs = acc ++ kvs.map (fun kv => (PyKey.s kv.1.keyStr, roundTrip kv.2)) := by
  induction kvs with
  | nil =>
    intro acc h hnd
    simp [rtDict]
  | cons kv kvs ih =>
    intro acc h hnd
    rw [List.map_cons] at hnd
    rcases List.nodup_cons.mp hnd with ⟨hk, hnd2⟩
    rw [rtDict, dictSet_append _ _ _ (h kv (List.mem_cons_self kv kvs))]
    rw [ih (acc ++ [(PyKey.s kv.1.keyStr, roundTrip kv.2)]) ?_ hnd2]
    · rw [List.map_cons, List.append_assoc]
      rfl
    · intro kv' hkv'
      rw [List.map_append, List.mem_append]
      rintro (hin | hin)
      · exact h kv' (List.mem_cons_of_mem _ hkv') hin
      · simp only [List.map_cons, List.map_nil, List.mem_singleton] at hin
        rw [← hin] at hk
        exact hk (List.mem_map.mpr ⟨kv', hkv', rfl⟩)

theorem roundTrip_dict_fixed (kvs : List (PyKey × PyVal))
    (hstr : ∀ kv ∈ kvs, kv.1.isStr = true)
    (hnd : (kvs.map Prod.fst).Nodup)
    (hvals : ∀ kv ∈ kvs, roundTrip kv.2 = kv.2) :
    roundTrip (PyVal.dict kvs) = PyVal.dict kvs := by
  have hkey : ∀ kv ∈ kvs, PyKey.s kv.1.keyStr = kv.1 := by
    intro kv hkv
    rcases hk1 : kv.1 with v | v
    · rfl
    · have hb := hstr kv hkv
      rw [hk1] at hb
      cases hb
  have hmap : kvs.map (fun kv => PyKey.s kv.1.keyStr) = kvs.map Prod.fst :=
    List.map_congr_left hkey
  have h1 : roundTrip (PyVal.dict kvs) = PyVal.dict (rtDict [] kvs) := rfl
  rw [h1, rtDict_eq_append kvs [] (by simp) (by rw [hmap]; exact hnd), List.nil_append]
  have h2 : kvs.map (fun kv => (PyKey.s kv.1.keyStr, roundTrip kv.2)) = kvs.map id := by
    apply List.map_congr_left
    intro kv hkv
    rw [hkey kv hkv, hvals kv hkv, id]
  rw [h2, List.map_id]

theorem rtList_fixed (xs : List PyVal) (h : ∀ x ∈ xs, roundTrip x = x) : rtList xs = xs := by
  induction xs with
  | nil => rfl
  | cons x xs ih =>
    rw [rtList, h x (List.mem_cons_self x xs), ih (fun y hy => h y (List.mem_cons_of_mem _ hy))]

theorem roundTrip_list_fixed (xs : List PyVal) (h : ∀ x ∈ xs, roundTrip x = x) :
    roundTrip (PyVal.list xs) = PyVal.list xs := by
  have h1 : roundTrip (PyVal.list xs) = PyVal.list (rtList xs) := rfl
  rw [h1, rtList_fixed xs h]

theorem roundTrip_optQ (o : Option ℚ) : roundTrip (optQToPy o) = optQToPy o := by
  cases o <;> rfl

theorem roundTrip_keyToPy (k : PyKey) : roundTrip (keyToPy k) = keyToPy k := by
  cases k <;> rfl

theorem roundTrip_optKey (o : Option PyKey) : roundTrip (optKeyToPy o) = optKeyToPy o := by
  rcases o with _ | k
  · rfl
  · exact roundTrip_keyToPy k

theorem roundTrip_optInt (o : Option Int) : roundTrip (optIntToPy o) = optIntToPy o := by
  cases o <;> rfl

theorem roundTrip_optStr (o : Option String) : roundTrip (optStrToPy o) = optStrToPy o := by
  cases o <;> rfl

theorem roundTrip_playerToPy (r : PlayerRecord) : roundTrip (playerToPy r) = playerToPy r := by
  apply roundTrip_dict_fixed
  · intro kv hkv
    simp only [playerToPy, List.mem_cons, List.not_mem_nil, or_false] at hkv
    rcases hkv with rfl | rfl | rfl | rfl | rfl | rfl | rfl | rfl | rfl <;> rfl
  · simp only [playerToPy, List.map_cons, List.map_nil]
    decide
  · intro kv hkv
    simp only [playerToPy, List.mem_cons, List.not_mem_nil, or_false] at hkv
    rcases hkv with rfl | rfl | rfl | rfl | rfl | rfl | rfl | rfl | rfl <;>
      first
        | rfl
        | exact roundTrip_keyToPy _
        | exact roundTrip_optQ _

theorem roundTrip_ballToPy (r : BallRecord) : roundTrip (ballToPy r) = ballToPy r := by
  apply roundTrip_dict_fixed
  · intro kv hkv
    simp only [ballToPy, List.mem_cons, List.not_mem_nil, or_false] at hkv
    rcases hkv with rfl | rfl | rfl | rfl | rfl | rfl | rfl | rfl <;> rfl
  · simp only [ballToPy, List.map_cons, List.map_nil]
    decide
  · intro kv hkv
    simp only [ballToPy, List.mem_cons, List.not_mem_nil, or_false] at hkv
    rcases hkv with rfl | rfl | rfl | rfl | rfl | rfl | rfl | rfl <;>
      first
        | rfl
        | exact roundTrip_optQ _

theorem roundTrip_passToPy (r : PassRecord) : roundTrip (passToPy r) = passToPy r := by
  apply roundTrip_dict_fixed
  · intro kv hkv
    simp only [passToPy, List.mem_cons, List.not_mem_nil, or_false] at hkv
    rcases hkv with rfl | rfl | rfl | rfl | rfl | rfl | rfl | rfl | rfl | rfl | rfl <;> rfl
  · simp only [passToPy, List.map_cons, List.map_nil]
    decide
  · intro kv hkv
    simp only [passToPy, List.mem_cons, List.not_mem_nil, or_false] at hkv
    rcases hkv with rfl | rfl | rfl | rfl | rfl | rfl | rfl | rfl | rfl | rfl | rfl <;>
      first
        | rfl
        | exact roundTrip_optInt _
        | exact roundTrip_optKey _
        | exact roundTrip_optStr _

theorem roundTrip_interceptionToPy (r : InterceptionRecord) :
    roundTrip (interceptionToPy r) = interceptionToPy r := by
  apply roundTrip_dict_fixed
  · intro kv hkv
    simp only [interceptionToPy, List.mem_cons, List.not_mem_nil, or_false] at hkv
    rcases hkv with rfl | rfl | rfl | rfl | rfl | rfl <;> rfl
  · simp only [interceptionToPy, List.map_cons, List.map_nil]
    decide
  · intro kv hkv
    simp only [interceptionToPy, List.mem_cons, List.not_mem_nil, or_false] at hkv
    rcases hkv with rfl | rfl | rfl | rfl | rfl | rfl <;>
      first
        | rfl
        | exact roundTrip_optInt _
        | exact roundTrip_optKey _
        | exact roundTrip_optStr _

theorem roundTrip_speedToPy (r : SpeedRecord) : roundTrip (speedToPy r) = speedToPy r := by
  apply roundTrip_dict_fixed
  · intro kv hkv
    simp only [speedToPy, List.mem_cons, List.not_mem_nil, or_false] at hkv
    rcases hkv with rfl | rfl | rfl | rfl | rfl <;> rfl
  · simp only [speedToPy, List.map_cons, List.map_nil]
    decide
  · intro kv hkv
    simp only [speedToPy, List.mem_cons, List.not_mem_nil, or_false] at hkv
    rcases hkv with rfl | rfl | rfl | rfl | rfl <;>
      first
        | rfl
        | exact roundTrip_keyToPy _

theorem roundTrip_teamPossessionToPy (r : TeamPossessionRecord)
    (hstr : ∀ kv ∈ r.possession_data, kv.1.isStr = true)
    (hnd : (r.possession_data.map Prod.fst).Nodup) :
    roundTrip (teamPossessionToPy r) = teamPossessionToPy r := by
  apply roundTrip_dict_fixed
  · intro kv hkv
    simp only [teamPossessionToPy, List.mem_cons, List.not_mem_nil, or_false] at hkv
    rcases hkv with rfl | rfl | rfl | rfl <;> rfl
  · simp only [teamPossessionToPy, List.map_cons, List.map_nil]
    decide
  · intro kv hkv
    simp only [teamPossessionToPy, List.mem_cons, List.not_mem_nil, or_false] at hkv
    rcases hkv with rfl | rfl | rfl | rfl
    · rfl
    · apply roundTrip_dict_fixed
      · intro kv' hkv'
        rcases List.mem_map.mp hkv' with ⟨kv0, hkv0, rfl⟩
        exact hstr kv0 hkv0
      · have hmap : (r.possession_data.map (fun kv => (kv.1, PyVal.int kv.2))).map Prod.fst
            = r.possession_data.map Prod.fst := by
          rw [List.map_map]
          rfl
        rw [hmap]
        exact hnd
      · intro kv' hkv'
        rcases List.mem_map.mp hkv' with ⟨kv0, hkv0, rfl⟩
        rfl
    · rfl
    · rfl

/-- Claim C7, counterexample: the round-trip claim fails as stated. The
reachable state produced by `extract_team_possession_data` from possession
info keyed by the integer player id `1` serializes its nested
`possession_data` dict with the key coerced to the string `"1"`
(`json.dump` stringifies non-string keys), so reloading the structured file
does not reproduce the collections field-for-field. -/
theorem save_to_json_round_trip_counterexample :
    roundTrip (save_to_json_root "t"
        (extract_team_possession_data Extractor.init [Acquisition.dictA [PyKey.i 1]] []))
      ≠ save_to_json_root "t"
        (extract_team_possession_data Extractor.init [Acquisition.dictA [PyKey.i 1]] []) := by
  intro h
  have h2 : ((((save_to_json_root "t"
          (extract_team_possession_data Extractor.init [Acquisition.dictA [PyKey.i 1]] [])).item
            "team_possession_data").first).item "possession_data").dictKeys
        = [PyKey.i 1] := rfl
  have h3 : ((((roundTrip (save_to_json_root "t"
          (extract_team_possession_data Extractor.init [Acquisition.dictA [PyKey.i 1]] []))).item
            "team_possession_data").first).item "possession_data").dictKeys
        = [PyKey.s "1"] := rfl
  rw [h, h2] at h3
  exact absurd h3 (by decide)

/-- Claim C7 (amended): serializing with `save_to_json` and reloading the
written structured file yields the same six collections field-for-field
with insertion order preserved, provided every `possession_data` mapping in
the team-possession collection has string keys (pairwise distinct, as the
dict construction guarantees). When a `possession_data` mapping has a
non-string key — e.g. an integer player id — `json.dump` coerces it to a
string and the reload does not reproduce the collection (see the
counterexample). The other five collections round-trip unconditionally. -/
theorem save_to_json_round_trip_of_string_keys (t : String) (s : Extractor)
    (h : ∀ r ∈ s.team_possession_data,
        (∀ kv ∈ r.possession_data, kv.1.isStr = true) ∧
        (r.possession_data.map Prod.fst).Nodup) :
    roundTrip (save_to_json_root t s) = save_to_json_root t s := by
  apply roundTrip_dict_fixed
  · intro kv hkv
    simp only [save_to_json_root, List.mem_cons, List.not_mem_nil, or_false] at hkv
    rcases hkv with rfl | rfl | rfl | rfl | rfl | rfl | rfl <;> rfl
  · simp only [save_to_json_root, List.map_cons, List.map_nil]
    decide
  · intro kv hkv
    simp only [save_to_json_root, List.mem_cons, List.not_mem_nil, or_false] at hkv
    rcases hkv with rfl | rfl | rfl | rfl | rfl | rfl | rfl
    · apply roundTrip_dict_fixed
      · intro kv' hkv'
        simp only [List.mem_cons, List.not_mem_nil, or_false] at hkv'
        rcases hkv' with rfl | rfl | rfl | rfl | rfl <;> rfl
      · simp only [List.map_cons, List.map_nil]
        decide
      · intro kv' hkv'
        simp only [List.mem_cons, List.not_mem_nil, or_false] at hkv'
        rcases hkv' with rfl | rfl | rfl | rfl | rfl <;> rfl
    · apply roundTrip_list_fixed
      intro x hx
      rcases List.mem_map.mp hx with ⟨r, _, rfl⟩
      exact roundTrip_playerToPy r
    · apply roundTrip_list_fixed
      intro x hx
      rcases List.mem_map.mp hx with ⟨r, _, rfl⟩
      exact roundTrip_ballToPy r
    · apply roundTrip_list_fixed
      intro x hx
      rcases List.mem_map.mp hx with ⟨r, _, rfl⟩
      exact roundTrip_passToPy r
    · apply roundTrip_list_fixed
      intro x hx
      rcases List.mem_map.mp hx with ⟨r, _, rfl⟩
      exact roundTrip_interceptionToPy r
    · apply roundTrip_list_fixed
      intro x hx
      rcases List.mem_map.mp hx with ⟨r, _, rfl⟩
      exact roundTrip_speedToPy r
    · apply roundTrip_list_fixed
      intro x hx
      rcases List.mem_map.mp hx with ⟨r, hr, rfl⟩
      exact roundTrip_teamPossessionToPy r (h r hr).1 (h r hr).2

/-- Witness for the amended C7: a reachable state whose possession keys are
the string `"p1"` round-trips exactly. -/
theorem save_to_json_round_trip_of_string_keys_witness :
    roundTrip (save_to_json_root "t"
        (extract_team_possession_data Extractor.init [Acquisition.dictA [PyKey.s "p1"]] []))
      = save_to_json_root "t"
        (extract_team_possession_data Extractor.init [Acquisition.dictA [PyKey.s "p1"]] []) :=
  save_to_json_round_trip_of_string_keys "t"
    (extract_team_possession_data Extractor.init [Acquisition.dictA [PyKey.s "p1"]] [])
    (by decide)
